import Mathlib

/-!
# Verification of the trmnl display client's update pipeline

A shallow embedding of the display-update pipeline of `trmnl-python.py`:
the per-iteration `process_image` routine that fetches a rendering
directive, thresholds the decoded grayscale image to a 1-bit image,
packs it into the panel's byte buffer, displays it, and sleeps.

The embedding follows the source:
* directive parsing (lines 95-103): `data["image_url"]` with
  `data.get("filename", "display.jpg")` and `data.get("refresh_rate", 60)`,
  where a `JSONDecodeError` or `KeyError` is caught and turned into a
  60-second sleep;
* thresholding (lines 125-132): fixed threshold 128, with polarity chosen
  by `dark_mode`;
* bit packing (lines 140-149): a `bytearray(width * height // 8)` written
  pixel by pixel, MSB-first, `|=` for a white pixel and `&= ~(1 << off)`
  for a black pixel, where an out-of-range byte index raises (modelled as
  `Option.none`);
* the control flow of one loop iteration (lines 87-157): each caught error
  sleeps 60 seconds and skips the rest of the iteration, a successful
  display sleeps `max(refresh_rate, 1)`.
-/

namespace Trmnl

/-! ## Image normalization (lines 122-132) -/

/-- The fixed threshold of line 125: `threshold = 128`. -/
def threshold : Nat := 128

/-- The pixel value written into the 1-bit image `mono_img` (lines 129-132):
`255 if pixel < threshold else 0` in dark mode,
`0 if pixel < threshold else 255` otherwise. -/
def monoPixel (dark_mode : Bool) (pixel : Nat) : Nat :=
  if dark_mode then
    if pixel < threshold then 255 else 0
  else
    if pixel < threshold then 0 else 255

/-- The 1-bit image produced by the loop of lines 126-132 from the
grayscale, already-resized image `img` (each `putpixel` writes an
independent position, so the image is the pointwise `monoPixel`). -/
def normalizeMono (dark_mode : Bool) (img : Nat → Nat → Nat) : Nat → Nat → Nat :=
  fun x y => monoPixel dark_mode (img x y)

/-- The boolean mask a 1-bit image denotes: `true` at a white (nonzero)
pixel, `false` at a black (zero) pixel, matching the test
`mono_img.getpixel((x, y)) == 0` of line 146. -/
def maskOf (mono : Nat → Nat → Nat) (x y : Nat) : Bool :=
  mono x y != 0

/-! ## Bit packing (lines 140-149)

The buffer is `bytearray(epd.width * epd.height // 8)` (line 140); the
nested loop over `y` then `x` computes `bit_pos = y * width + x`,
`byte_pos = bit_pos // 8`, `bit_offset = 7 - (bit_pos % 8)` and either
clears (`&= ~(1 << bit_offset)`, i.e. AND with `0xFF ^^^ (1 <<< off)` on a
byte value) or sets (`|= (1 << bit_offset)`) that bit.  A `byte_pos`
outside the buffer raises `IndexError` in Python; we model the write as
`Option`-valued and the raised exception as `none` propagating out. -/

/-- One write `buffer[byte_pos] op= (1 << bit_offset)` into the byte list,
`none` when `byte_pos` is out of range (the Python `IndexError`). -/
def writeBit (buf : List Nat) (byte_pos bit_offset : Nat) (isBlack : Bool) :
    Option (List Nat) :=
  if byte_pos < buf.length then
    let b := buf.getD byte_pos 0
    some (buf.set byte_pos
      (if isBlack then b &&& (255 ^^^ (2 ^ bit_offset)) else b ||| (2 ^ bit_offset)))
  else
    none

/-- The body of the packing loop for the pixel at column `p.2`, row `p.1`
(lines 143-149). -/
def packPixel (w : Nat) (mono : Nat → Nat → Nat) (buf : List Nat)
    (p : Nat × Nat) : Option (List Nat) :=
  let bit_pos := p.1 * w + p.2
  writeBit buf (bit_pos / 8) (7 - bit_pos % 8) (mono p.2 p.1 == 0)

/-- The iteration order of the nested loops of lines 141-142:
`y` over `range(height)` outside, `x` over `range(width)` inside. -/
def pixelOrder (w h : Nat) : List (Nat × Nat) :=
  (List.range h).flatMap (fun y => (List.range w).map (fun x => (y, x)))

/-- The packing step of lines 140-149: start from
`bytearray(w * h // 8)` (all zeros) and run the nested pixel loop;
`none` models the `IndexError` a write past the end of the buffer raises. -/
def pack (w h : Nat) (mono : Nat → Nat → Nat) : Option (List Nat) :=
  (pixelOrder w h).foldlM (packPixel w mono) (List.replicate (w * h / 8) 0)

/-- Reading pixel `(x, y)` back out of a packed buffer under the MSB-first
layout: bit `7 - i % 8` of byte `i / 8` where `i = y * w + x`. -/
def unpack (w : Nat) (buf : List Nat) (x y : Nat) : Bool :=
  (buf.getD ((y * w + x) / 8) 0).testBit (7 - (y * w + x) % 8)

/-! ## Directive parsing (lines 95-103) -/

/-- The JSON body of the `/api/display` response, as the fields the client
reads: each is present or absent in the JSON object. -/
structure ApiResponse where
  image_url : Option String
  filename : Option String
  refresh_rate : Option Int
deriving DecidableEq

/-- The parsed rendering directive (lines 97-99). -/
structure Directive where
  image_url : String
  filename : String
  refresh_rate : Int
deriving DecidableEq

/-- The exceptions caught at line 100: a missing `image_url` key raises
`KeyError` (the only key read with `data[...]`). -/
inductive ParseError where
  | missingImageUrl
deriving DecidableEq

/-- Lines 97-99: `data["image_url"]` (raising on absence),
`data.get("filename", "display.jpg")`, `data.get("refresh_rate", 60)`. -/
def parseDirective (r : ApiResponse) : Except ParseError Directive :=
  match r.image_url with
  | none => .error .missingImageUrl
  | some u =>
      .ok { image_url := u
            filename := r.filename.getD "display.jpg"
            refresh_rate := r.refresh_rate.getD 60 }

/-! ## One iteration of the update loop (`process_image`, lines 81-157) -/

/-- Outcome of a network call guarded by `except requests.RequestException`:
either a value or the caught exception. -/
inductive FetchOutcome (α : Type) where
  | ok (a : α)
  | exn
deriving DecidableEq

/-- The environment one iteration runs against: what each external call
returns.  `fetch = .ok none` is a 200 response whose body fails
`response.json()` (the caught `JSONDecodeError`); `decodeOk = false` is a
failure of `Image.open`/`convert`/`resize` (caught at line 155);
`image` is the decoded grayscale image after the resize of line 123;
`displayOk = false` is `epd.display` raising (also caught at line 155). -/
structure Env where
  fetch : FetchOutcome (Option ApiResponse)
  download : FetchOutcome Unit
  decodeOk : Bool
  image : Nat → Nat → Nat
  displayOk : Bool

/-- What one call of `process_image` did: the durations passed to
`time.sleep` and the buffers passed to `epd.display`, in order. -/
structure Trace where
  sleeps : List Int
  displayCalls : List (List Nat)
deriving DecidableEq

/-- One iteration of the update loop (`process_image`, lines 87-157),
at panel dimensions `w × h` with the `-d` flag `dark`:
* a `RequestException` on the directive fetch sleeps 60 and returns
  (lines 90-93);
* a `JSONDecodeError`/`KeyError` while parsing sleeps 60 and returns
  (lines 100-103);
* a `RequestException` on the image download sleeps 60 and returns
  (lines 112-115);
* any exception in the decode / threshold / pack / display block is caught
  at line 155 and sleeps 60;
* on success, `epd.display(buffer)` then `time.sleep(max(refresh_rate, 1))`
  (lines 151-154). -/
def processImage (env : Env) (w h : Nat) (dark : Bool) : Trace :=
  match env.fetch with
  | .exn => { sleeps := [60], displayCalls := [] }
  | .ok none => { sleeps := [60], displayCalls := [] }
  | .ok (some data) =>
      match parseDirective data with
      | .error _ => { sleeps := [60], displayCalls := [] }
      | .ok d =>
          match env.download with
          | .exn => { sleeps := [60], displayCalls := [] }
          | .ok _ =>
              if env.decodeOk then
                match pack w h (normalizeMono dark env.image) with
                | none => { sleeps := [60], displayCalls := [] }
                | some buffer =>
                    if env.displayOk then
                      { sleeps := [max d.refresh_rate 1], displayCalls := [buffer] }
                    else
                      { sleeps := [60], displayCalls := [buffer] }
              else { sleeps := [60], displayCalls := [] }

/-! ## Theorems -/

/-- Full case analysis of one iteration: either some stage before the
display succeeded fails and the trace is a single 60-second sleep with no
display call, or every stage up to packing succeeds and the iteration
displays the packed buffer, sleeping `max(refresh_rate, 1)` on display
success and 60 on display failure. -/
theorem processImage_cases (env : Env) (w h : Nat) (dark : Bool) :
    processImage env w h dark = { sleeps := [60], displayCalls := [] }
    ∨ (∃ data d buffer,
        env.fetch = .ok (some data) ∧ parseDirective data = .ok d ∧
        env.download = .ok () ∧ env.decodeOk = true ∧
        pack w h (normalizeMono dark env.image) = some buffer ∧
        ((env.displayOk = true ∧
            processImage env w h dark
              = { sleeps := [max d.refresh_rate 1], displayCalls := [buffer] })
         ∨ (env.displayOk = false ∧
            processImage env w h dark
              = { sleeps := [60], displayCalls := [buffer] }))) := by
  cases hf : env.fetch with
  | exn => left; simp [processImage, hf]
  | ok b =>
    cases b with
    | none => left; simp [processImage, hf]
    | some data =>
      cases hp : parseDirective data with
      | error e => left; simp [processImage, hf, hp]
      | ok d =>
        cases hd : env.download with
        | exn => left; simp [processImage, hf, hp, hd]
        | ok u =>
          cases u
          cases hdec : env.decodeOk with
          | false => left; simp [processImage, hf, hp, hd, hdec]
          | true =>
            cases hpk : pack w h (normalizeMono dark env.image) with
            | none => left; simp [processImage, hf, hp, hd, hdec, hpk]
            | some buffer =>
              right
              refine ⟨data, d, buffer, rfl, hp, rfl, rfl, rfl, ?_⟩
              cases hdisp : env.displayOk with
              | true => left; exact ⟨rfl, by simp [processImage, hf, hp, hd, hdec, hpk, hdisp]⟩
              | false => right; exact ⟨rfl, by simp [processImage, hf, hp, hd, hdec, hpk, hdisp]⟩

/-- `getD` of an all-zero buffer is zero. -/
theorem getD_replicate_zero (L j : Nat) : (List.replicate L (0 : Nat)).getD j 0 = 0 := by
  rcases Nat.lt_or_ge j L with h | h
  · simp [List.getD_eq_getElem?_getD, List.getElem?_replicate, h]
  · have hlen : (List.replicate L (0 : Nat)).length ≤ j := by simpa using h
    simp [List.getD_eq_getElem?_getD, List.getElem?_eq_none hlen]

/-- `getD` at the position just written by `set`. -/
theorem getD_set_self (l : List Nat) (i a : Nat) (h : i < l.length) :
    (l.set i a).getD i 0 = a := by
  simp [List.getD_eq_getElem?_getD, List.getElem?_set_self', List.getElem?_eq_getElem h]

/-- `getD` at a position other than the one written by `set`. -/
theorem getD_set_ne (l : List Nat) (i j a : Nat) (h : i ≠ j) :
    (l.set i a).getD j 0 = l.getD j 0 := by
  simp [List.getD_eq_getElem?_getD, List.getElem?_set_ne h]

/-- Peeling the last step off an effectful fold over `List.range`. -/
theorem foldlM_step (f : List Nat → Nat → Option (List Nat)) (init : List Nat) (m : Nat) :
    (List.range (m + 1)).foldlM f init
      = (List.range m).foldlM f init >>= fun b => f b m := by
  rw [List.range_succ, List.foldlM_append]
  cases h : (List.range m).foldlM f init <;>
    simp [List.foldlM_cons, List.foldlM_nil]

/-- An effectful fold over a mapped list folds the composition. -/
theorem foldlM_map_index (g : Nat → Nat × Nat) (f : List Nat → Nat × Nat → Option (List Nat))
    (l : List Nat) (init : List Nat) :
    (l.map g).foldlM f init = l.foldlM (fun b a => f b (g a)) init := by
  induction l generalizing init with
  | nil => rfl
  | cons a as ih => simp [List.foldlM_cons, ih]

/-- The nested `y`/`x` iteration over the panel visits exactly the bit
positions `0, 1, ..., w*h - 1` in order: pixel `(y, x)` is bit
`y * w + x`, and conversely bit `i` is pixel `(i / w, i % w)`. -/
theorem pixelOrder_eq_range (w h : Nat) :
    pixelOrder w h = (List.range (w * h)).map (fun i => (i / w, i % w)) := by
  induction h with
  | zero => simp [pixelOrder]
  | succ h ih =>
    have hr : w * (h + 1) = w * h + w := by ring
    simp only [pixelOrder] at ih ⊢
    rw [List.range_succ, List.flatMap_append, ih, hr, List.range_add, List.map_append]
    congr 1
    simp only [List.flatMap_cons, List.flatMap_nil, List.append_nil, List.map_map]
    apply List.map_congr_left
    intro x hx
    have hxw : x < w := List.mem_range.mp hx
    have hw : 0 < w := Nat.lt_of_le_of_lt (Nat.zero_le x) hxw
    have hdiv : (w * h + x) / w = h := by
      rw [Nat.mul_add_div hw, Nat.div_eq_of_lt hxw]; rfl
    have hmod : (w * h + x) % w = x := by
      rw [Nat.mul_add_mod]; exact Nat.mod_eq_of_lt hxw
    simp [Function.comp, hdiv, hmod]

/-- The packing loop as a single fold over linear bit positions. -/
theorem pack_eq_flat (w h : Nat) (mono : Nat → Nat → Nat) :
    pack w h mono
      = (List.range (w * h)).foldlM (fun b i => packPixel w mono b (i / w, i % w))
          (List.replicate (w * h / 8) 0) := by
  simp only [pack]
  rw [pixelOrder_eq_range]
  exact foldlM_map_index _ _ _ _

/-- Invariant of the packing loop: after the first `m` pixel writes into a
buffer of `L` zero bytes (with `m ≤ 8 * L`, so no write is out of range),
the fold has failed nowhere, the buffer still has `L` bytes, and bit `t` of
byte `j` is set exactly when it is the already-written MSB-first bit of a
white pixel: `t < 8`, `8 * j + (7 - t) < m`, and pixel `8 * j + (7 - t)`
is nonzero in the 1-bit image. -/
theorem packFold_invariant (w L : Nat) (mono : Nat → Nat → Nat) :
    ∀ m, m ≤ 8 * L →
      ∃ buf,
        (List.range m).foldlM (fun b i => packPixel w mono b (i / w, i % w))
            (List.replicate L 0) = some buf
        ∧ buf.length = L
        ∧ ∀ j t, (buf.getD j 0).testBit t
            = (decide (t < 8) && decide (8 * j + (7 - t) < m)
               && !(mono ((8 * j + (7 - t)) % w) ((8 * j + (7 - t)) / w) == 0)) := by
  intro m
  induction m with
  | zero =>
    intro _
    refine ⟨List.replicate L 0, rfl, by simp, ?_⟩
    intro j t
    rw [getD_replicate_zero]
    simp [Nat.zero_testBit]
  | succ m ih =>
    intro hm
    obtain ⟨buf, hfold, hlen, hbit⟩ := ih (by omega)
    have hmlt : m / 8 < buf.length := by rw [hlen]; omega
    refine ⟨buf.set (m / 8)
      (if mono (m % w) (m / w) == 0
        then buf.getD (m / 8) 0 &&& (255 ^^^ 2 ^ (7 - m % 8))
        else buf.getD (m / 8) 0 ||| 2 ^ (7 - m % 8)), ?_, ?_, ?_⟩
    · rw [foldlM_step, hfold]
      show packPixel w mono buf (m / w, m % w) = _
      have hbp : m / w * w + m % w = m := by
        rw [Nat.mul_comm]; exact Nat.div_add_mod m w
      simp only [packPixel]
      rw [hbp]
      simp only [writeBit, if_pos hmlt]
    · rw [List.length_set]; exact hlen
    · intro j t
      by_cases hj : j = m / 8
      · subst hj
        rw [getD_set_self _ _ _ hmlt]
        have h255 : (255 : Nat) = 2 ^ 8 - 1 := by norm_num
        by_cases hpix : (mono (m % w) (m / w) == 0) = true
        · rw [if_pos hpix, Nat.testBit_land, Nat.testBit_xor, h255,
            Nat.testBit_two_pow_sub_one, Nat.testBit_two_pow, hbit]
          by_cases ht : t < 8
          · by_cases hte : t = 7 - m % 8
            · have h1 : 8 * (m / 8) + (7 - t) = m := by omega
              rw [h1]
              simp [hpix]
            · have hb : decide (8 * (m / 8) + (7 - t) < m + 1)
                  = decide (8 * (m / 8) + (7 - t) < m) :=
                decide_eq_decide.mpr (by omega)
              have hxo : ¬ (7 - m % 8 = t) := by omega
              rw [hb]
              simp [ht, hxo]
          · have hxo : ¬ (7 - m % 8 = t) := by omega
            simp [ht, hxo]
        · rw [if_neg hpix, Nat.testBit_lor, Nat.testBit_two_pow, hbit]
          have hpix' : (mono (m % w) (m / w) == 0) = false := by
            revert hpix; cases mono (m % w) (m / w) == 0 <;> simp
          by_cases ht : t < 8
          · by_cases hte : t = 7 - m % 8
            · have h1 : 8 * (m / 8) + (7 - t) = m := by omega
              have hofft : 7 - m % 8 = t := hte.symm
              rw [h1]
              simp [hpix', hofft, ht]
            · have hb : decide (8 * (m / 8) + (7 - t) < m + 1)
                  = decide (8 * (m / 8) + (7 - t) < m) :=
                decide_eq_decide.mpr (by omega)
              have hxo : ¬ (7 - m % 8 = t) := by omega
              rw [hb]
              simp [ht, hxo]
          · have hxo : ¬ (7 - m % 8 = t) := by omega
            simp [ht, hxo]
      · rw [getD_set_ne _ _ _ _ (Ne.symm hj), hbit]
        by_cases ht : t < 8
        · have hb : decide (8 * j + (7 - t) < m + 1)
              = decide (8 * j + (7 - t) < m) :=
            decide_eq_decide.mpr (by omega)
          rw [hb]
        · simp [ht]

/-- When `w * h` is a multiple of 8, the packing step of lines 140-149
completes without an out-of-range write and returns a buffer of
`w * h / 8` bytes whose bits are the MSB-first pixel bits. -/
theorem pack_succeeds (w h : Nat) (mono : Nat → Nat → Nat) (hdiv : w * h % 8 = 0) :
    ∃ buf, pack w h mono = some buf ∧ buf.length = w * h / 8
      ∧ ∀ j t, (buf.getD j 0).testBit t
          = (decide (t < 8) && decide (8 * j + (7 - t) < w * h)
             && !(mono ((8 * j + (7 - t)) % w) ((8 * j + (7 - t)) / w) == 0)) := by
  obtain ⟨buf, hfold, hlen, hbit⟩ :=
    packFold_invariant w (w * h / 8) mono (w * h) (by omega)
  refine ⟨buf, ?_, hlen, hbit⟩
  rw [pack_eq_flat]
  exact hfold

/-- Per-pixel reading of the packed buffer: the MSB-first bit of pixel
`(x, y)` equals the whiteness of that pixel in the 1-bit image. -/
theorem pack_bit_eq (w h : Nat) (mono : Nat → Nat → Nat) (hdiv : w * h % 8 = 0) :
    ∃ buf, pack w h mono = some buf
      ∧ ∀ x y, x < w → y < h →
        (buf.getD ((y * w + x) / 8) 0).testBit (7 - (y * w + x) % 8)
          = (mono x y != 0) := by
  obtain ⟨buf, hpk, _, hbit⟩ := pack_succeeds w h mono hdiv
  refine ⟨buf, hpk, ?_⟩
  intro x y hx hy
  have hw : 0 < w := Nat.lt_of_le_of_lt (Nat.zero_le x) hx
  have h2 : y * w + w = (y + 1) * w := by ring
  have h3 : (y + 1) * w ≤ h * w := Nat.mul_le_mul_right w (by omega)
  have h4 : h * w = w * h := Nat.mul_comm h w
  have hi : y * w + x < w * h := by omega
  have hbit' := hbit ((y * w + x) / 8) (7 - (y * w + x) % 8)
  have hrec : 8 * ((y * w + x) / 8) + (7 - (7 - (y * w + x) % 8)) = y * w + x := by omega
  rw [hbit', hrec]
  have hcm : y * w + x = w * y + x := by ring
  have himod : (y * w + x) % w = x := by
    rw [hcm, Nat.mul_add_mod]; exact Nat.mod_eq_of_lt hx
  have hidiv : (y * w + x) / w = y := by
    rw [hcm, Nat.mul_add_div hw, Nat.div_eq_of_lt hx]; rfl
  have ht8 : 7 - (y * w + x) % 8 < 8 := by omega
  rw [himod, hidiv, decide_eq_true ht8, decide_eq_true hi]
  cases hmx : mono x y == 0 <;> simp [bne, hmx]

/-- C1 (amended): when `width * height` is a multiple of 8 — which holds
for the 800×480 panel this client drives — the packing step produces a
buffer of exactly `ceil(width * height / 8)` bytes (the floor of line 140
and the ceiling coincide).  For dimensions where `width * height` is not a
multiple of 8 the claim fails: line 140 allocates `width * height // 8`
bytes (floor, not ceil) and the final pixel writes then index past the end
of the buffer, so the packing step raises instead of producing a buffer. -/
theorem packed_length (w h : Nat) (mono : Nat → Nat → Nat) (hdiv : w * h % 8 = 0) :
    ∃ buf, pack w h mono = some buf ∧ buf.length = (w * h + 7) / 8 := by
  obtain ⟨buf, hpk, hlen, _⟩ := pack_succeeds w h mono hdiv
  exact ⟨buf, hpk, by omega⟩

/-- Counterexample to C1 as stated: on a 3×3 panel (9 pixels, not a
multiple of 8) the spec's `ceil(width * height / 8)` is 2, but the
allocation of line 140 is `9 // 8 = 1` byte and the packing step fails
with an out-of-range write (`IndexError`), producing no buffer at all. -/
theorem packed_length_counterexample :
    pack 3 3 (fun _ _ => 0) = none ∧ 3 * 3 / 8 = 1 ∧ (3 * 3 + 7) / 8 = 2 := by
  refine ⟨?_, rfl, rfl⟩
  rfl

/-- Witness for the amended C1 on a 4×2 panel. -/
theorem packed_length_witness :
    4 * 2 % 8 = 0
    ∧ ∃ buf, pack 4 2 (fun _ _ => 0) = some buf ∧ buf.length = (4 * 2 + 7) / 8 :=
  ⟨by decide, packed_length 4 2 (fun _ _ => 0) (by decide)⟩

/-- C4: the packing step encodes pixel `i = y * width + x` in bit position
`7 - (i % 8)` of byte `i / 8` (MSB-first), with bit value 1 for a white
pixel (nonzero in the 1-bit image) and 0 for a black pixel. -/
theorem msb_first_packing (w h : Nat) (mono : Nat → Nat → Nat) (hdiv : w * h % 8 = 0) :
    ∃ buf, pack w h mono = some buf
      ∧ ∀ x y, x < w → y < h →
        (buf.getD ((y * w + x) / 8) 0).testBit (7 - (y * w + x) % 8)
          = (mono x y != 0) :=
  pack_bit_eq w h mono hdiv

/-- Witness for C4: a 4×2 checkerboard packs into the single byte
`0b01011010`, with each pixel's bit in its MSB-first position. -/
theorem msb_first_packing_witness :
    ∃ buf, pack 4 2 (fun x y => if (x + y) % 2 = 0 then 0 else 255) = some buf
      ∧ ∀ x y, x < 4 → y < 2 →
        (buf.getD ((y * 4 + x) / 8) 0).testBit (7 - (y * 4 + x) % 8)
          = ((if (x + y) % 2 = 0 then (0 : Nat) else 255) != 0) :=
  msb_first_packing 4 2 _ (by decide)

/-- C5: unpacking the packed buffer under the MSB-first layout recovers
the binary mask exactly: `unpack (pack mask) = mask` at every panel
position. -/
theorem pack_unpack_roundtrip (w h : Nat) (mono : Nat → Nat → Nat)
    (hdiv : w * h % 8 = 0) :
    ∃ buf, pack w h mono = some buf
      ∧ ∀ x y, x < w → y < h → unpack w buf x y = maskOf mono x y := by
  obtain ⟨buf, hpk, hbit⟩ := pack_bit_eq w h mono hdiv
  exact ⟨buf, hpk, fun x y hx hy => hbit x y hx hy⟩

/-- Witness for C5 on a 4×2 diagonal mask. -/
theorem pack_unpack_roundtrip_witness :
    ∃ buf, pack 4 2 (fun x y => if x = y then 0 else 255) = some buf
      ∧ ∀ x y, x < 4 → y < 2 →
        unpack 4 buf x y = maskOf (fun x y => if x = y then 0 else 255) x y :=
  pack_unpack_roundtrip 4 2 _ (by decide)

/-- C2: the thresholding of lines 125-132 classifies a grayscale intensity
`p` as "dark" (ink under the light polarity, i.e. `monoPixel false p = 0`)
exactly when `p < 128`; in particular intensity exactly 128 is classified
light (`monoPixel false 128 = 255`, `monoPixel true 128 = 0`). -/
theorem threshold_boundary :
    ∀ p : Nat, ((monoPixel false p = 0) ↔ p < 128)
      ∧ ((monoPixel true p = 255) ↔ p < 128)
      ∧ monoPixel false 128 = 255 ∧ monoPixel true 128 = 0
      ∧ monoPixel false 127 = 0 ∧ monoPixel false 129 = 255 := by
  intro p
  refine ⟨?_, ?_, by decide, by decide, by decide, by decide⟩ <;>
    · simp only [monoPixel, threshold]
      split <;> simp_all

/-- C3: normalization with `dark_mode = true` produces, at every pixel, the
boolean complement of the mask produced with `dark_mode = false` on the
same image (the two `putpixel` branches of lines 129-132 write 255 and 0
in opposite cases). -/
theorem polarity_symmetry :
    ∀ (img : Nat → Nat → Nat) (x y : Nat),
      maskOf (normalizeMono true img) x y = !(maskOf (normalizeMono false img) x y)
      ∧ normalizeMono true img x y + normalizeMono false img x y = 255 := by
  intro img x y
  simp only [maskOf, normalizeMono, monoPixel]
  by_cases h : img x y < threshold <;> simp [h]

/-- C6: parsing any directive body that has `image_url` succeeds, and the
two defaults of lines 98-99 apply independently: whenever `filename` is
absent the parsed filename is `"display.jpg"`, and whenever `refresh_rate`
is absent the parsed refresh interval is 60 — each regardless of whether
the other field is present. -/
theorem directive_defaulting (r : ApiResponse) (u : String)
    (hu : r.image_url = some u) :
    ∃ d, parseDirective r = .ok d ∧ d.image_url = u
      ∧ (r.filename = none → d.filename = "display.jpg")
      ∧ (r.refresh_rate = none → d.refresh_rate = 60) := by
  refine ⟨{ image_url := u, filename := r.filename.getD "display.jpg",
            refresh_rate := r.refresh_rate.getD 60 },
    by simp [parseDirective, hu], rfl, ?_, ?_⟩
  · intro hf; rw [hf]; rfl
  · intro hr; rw [hr]; rfl

/-- Witness for C6 at the spec's own example body
`\x7b"image_url": "http://x/y.jpg"\x7d` (both fields absent) and at the
two mixed bodies where exactly one of `filename`, `refresh_rate` is
absent. -/
theorem directive_defaulting_witness :
    (∃ d, parseDirective { image_url := some "http://x/y.jpg", filename := none,
                            refresh_rate := none } = .ok d ∧ d.image_url = "http://x/y.jpg"
      ∧ (none = (none : Option String) → d.filename = "display.jpg")
      ∧ (none = (none : Option Int) → d.refresh_rate = 60))
    ∧ (∃ d, parseDirective { image_url := some "http://x/y.jpg", filename := none,
                              refresh_rate := some 30 } = .ok d ∧ d.image_url = "http://x/y.jpg"
      ∧ (none = (none : Option String) → d.filename = "display.jpg")
      ∧ (some 30 = (none : Option Int) → d.refresh_rate = 60))
    ∧ (∃ d, parseDirective { image_url := some "http://x/y.jpg",
                              filename := some "photo.jpg",
                              refresh_rate := none } = .ok d ∧ d.image_url = "http://x/y.jpg"
      ∧ (some "photo.jpg" = (none : Option String) → d.filename = "display.jpg")
      ∧ (none = (none : Option Int) → d.refresh_rate = 60)) :=
  ⟨directive_defaulting _ "http://x/y.jpg" rfl,
   directive_defaulting _ "http://x/y.jpg" rfl,
   directive_defaulting _ "http://x/y.jpg" rfl⟩

/-- C7: a directive body with no `image_url`, or a body that is not
parseable as JSON, is rejected as a unit: parsing raises the `KeyError` of
line 97, and the whole iteration is the fixed error trace (one 60-second
sleep, no display call), independent of every other field of the body. -/
theorem malformed_directive_rejected (env : Env) (w h : Nat) (dark : Bool) :
    (∀ r : ApiResponse, env.fetch = .ok (some r) → r.image_url = none →
        parseDirective r = .error .missingImageUrl
        ∧ processImage env w h dark = { sleeps := [60], displayCalls := [] })
    ∧ (env.fetch = .ok none →
        processImage env w h dark = { sleeps := [60], displayCalls := [] }) := by
  constructor
  · intro r hfetch hurl
    have hp : parseDirective r = .error .missingImageUrl := by
      simp [parseDirective, hurl]
    exact ⟨hp, by simp [processImage, hfetch, hp]⟩
  · intro hfetch
    simp [processImage, hfetch]

/-- Witness for C7 at the spec's example body
`\x7b"refresh_rate": 30\x7d` (a present `refresh_rate`, no `image_url`). -/
theorem malformed_directive_rejected_witness :
    parseDirective { image_url := none, filename := none, refresh_rate := some 30 }
      = .error .missingImageUrl
    ∧ processImage
        { fetch := .ok (some { image_url := none, filename := none,
                                refresh_rate := some 30 }),
          download := .ok (), decodeOk := true, image := fun _ _ => 0,
          displayOk := true } 4 2 false
      = { sleeps := [60], displayCalls := [] } :=
  (malformed_directive_rejected _ 4 2 false).1 _ rfl rfl

/-- C8: whenever any pipeline stage of an iteration fails — directive
fetch, JSON parse, image download, decode, packing, or the display call —
the iteration sleeps exactly 60 seconds (the same fixed backoff for every
error kind) and no further work happens before the next iteration. -/
theorem uniform_backoff (env : Env) (w h : Nat) (dark : Bool)
    (hfail : env.fetch = .exn ∨ env.fetch = .ok none
      ∨ (∃ r e, env.fetch = .ok (some r) ∧ parseDirective r = .error e)
      ∨ env.download = .exn ∨ env.decodeOk = false
      ∨ pack w h (normalizeMono dark env.image) = none
      ∨ env.displayOk = false) :
    (processImage env w h dark).sleeps = [60] := by
  rcases processImage_cases env w h dark with h
    | ⟨data, d, buffer, hfetch, hparse, hdl, hdec, hpack, hrest⟩
  · rw [h]
  · rcases hrest with ⟨hdisp, heq⟩ | ⟨hdisp, heq⟩
    · rcases hfail with h1 | h1 | ⟨r, e, h1, h2⟩ | h1 | h1 | h1 | h1 <;> simp_all
    · rw [heq]

/-- Witness for C8: a `RequestException` on the directive fetch sleeps
exactly 60 seconds. -/
theorem uniform_backoff_witness :
    (processImage
        { fetch := .exn, download := .ok (), decodeOk := true,
          image := fun _ _ => 0, displayOk := true } 4 2 false).sleeps = [60] :=
  uniform_backoff _ 4 2 false (Or.inl rfl)

/-- C9: when every stage succeeds, the iteration displays the packed
buffer and then sleeps exactly `max(refresh_rate, 1)` seconds, where
`refresh_rate` comes from the directive parsed in the same iteration
(lines 151-154). -/
theorem refresh_pacing (env : Env) (w h : Nat) (dark : Bool)
    (data : ApiResponse) (d : Directive) (buffer : List Nat)
    (hfetch : env.fetch = .ok (some data)) (hparse : parseDirective data = .ok d)
    (hdl : env.download = .ok ()) (hdec : env.decodeOk = true)
    (hpack : pack w h (normalizeMono dark env.image) = some buffer)
    (hdisp : env.displayOk = true) :
    processImage env w h dark
      = { sleeps := [max d.refresh_rate 1], displayCalls := [buffer] } := by
  simp [processImage, hfetch, hparse, hdl, hdec, hpack, hdisp]

/-- Witness for C9: a directive with `refresh_rate = 30` and an all-black
image on a 4×2 panel displays the buffer `[0x00]` and sleeps 30 seconds. -/
theorem refresh_pacing_witness :
    processImage
        { fetch := .ok (some { image_url := some "http://x/y.jpg",
                                filename := none, refresh_rate := some 30 }),
          download := .ok (), decodeOk := true, image := fun _ _ => 0,
          displayOk := true } 4 2 false
      = { sleeps := [max (30 : Int) 1], displayCalls := [[0]] } :=
  refresh_pacing _ 4 2 false
    { image_url := some "http://x/y.jpg", filename := none, refresh_rate := some 30 }
    { image_url := "http://x/y.jpg", filename := "display.jpg", refresh_rate := 30 }
    [0] rfl rfl rfl rfl (by decide) rfl

/-- C10: an iteration in which the directive fetch, the directive parse,
or the image download fails makes no display call at all: the panel is
untouched by an iteration that errors before the display stage. -/
theorem no_display_on_early_error (env : Env) (w h : Nat) (dark : Bool)
    (hfail : env.fetch = .exn ∨ env.fetch = .ok none
      ∨ (∃ r e, env.fetch = .ok (some r) ∧ parseDirective r = .error e)
      ∨ env.download = .exn) :
    (processImage env w h dark).displayCalls = [] := by
  rcases processImage_cases env w h dark with h
    | ⟨data, d, buffer, hfetch, hparse, hdl, hdec, hpack, hrest⟩
  · rw [h]
  · exfalso
    rcases hrest with ⟨hdisp, heq⟩ | ⟨hdisp, heq⟩ <;>
      rcases hfail with h1 | h1 | ⟨r, e, h1, h2⟩ | h1 <;> simp_all

/-- Witness for C10: an iteration whose image download raises makes no
display call. -/
theorem no_display_on_early_error_witness :
    (processImage
        { fetch := .ok (some { image_url := some "http://x/y.jpg",
                                filename := none, refresh_rate := none }),
          download := .exn, decodeOk := true, image := fun _ _ => 0,
          displayOk := true } 4 2 false).displayCalls = [] :=
  no_display_on_early_error _ 4 2 false (Or.inr (Or.inr (Or.inr rfl)))

end Trmnl
